import Mathlib

set_option maxRecDepth 4000

namespace RkiLexicon

/-! Shallow embedding of the Rakhine-lexicon core: the validation engine
(`scripts/validation.py`), the in-memory lexicon store (`src/rki_lexicon/core.py`)
and the audio link store (`scripts/audio_integration.py`).  Python strings are
modelled as Lean `String` (lists of Unicode scalar values), JSON-like dynamic
values as the inductive `Value`, raised exceptions as `Except`/`Option`. -/

/-- Characters treated as whitespace by CPython for `str` patterns: the set
matched by the `re` module's `\s` class in Unicode mode and stripped by
`str.strip()` (both use `Py_UNICODE_ISSPACE`). -/
def isPySpace (c : Char) : Bool :=
  let n := c.toNat
  n == 32 || decide (9 ≤ n ∧ n ≤ 13) || decide (28 ≤ n ∧ n ≤ 31) ||
  n == 0x85 || n == 0xA0 || n == 0x1680 || decide (0x2000 ≤ n ∧ n ≤ 0x200A) ||
  n == 0x2028 || n == 0x2029 || n == 0x202F || n == 0x205F || n == 0x3000

/-- Python `str.lower()`, restricted to ASCII case mapping.  Every string the
source compares case-insensitively (POS tags, search queries in the claims)
is ASCII, so the restriction is invisible to the claims. -/
def pyLower (s : String) : String := ⟨s.data.map Char.toLower⟩

/-- Does `hay` start with `needle`?  Building block for Python's `in`. -/
def startsWithL : List Char → List Char → Bool
  | [], _ => true
  | _ :: _, [] => false
  | n :: ns, h :: hs => n == h && startsWithL ns hs

/-- Python's substring test `needle in hay` (the empty needle is in every
string, exactly as in Python). -/
def containsL (needle : List Char) : List Char → Bool
  | [] => needle.isEmpty
  | h :: hs => startsWithL needle (h :: hs) || containsL needle hs

/-- Python `needle in hay` on strings. -/
def containsStr (needle hay : String) : Bool := containsL needle.data hay.data

/-- A single-quote character, kept out of string literals. -/
def sq : String := (Char.ofNat 39).toString

/-- Python `"%04X" % n`: uppercase hex, left-padded with zeros to width 4. -/
def toUpperHex4 (n : Nat) : String :=
  let ds := (Nat.toDigits 16 n).map Char.toUpper
  ⟨List.replicate (4 - ds.length) '0' ++ ds⟩

/-- Dynamic (JSON-like) Python values as they occur in raw lexicon records. -/
inductive Value where
  | vNone
  | vBool (b : Bool)
  | vInt (n : Int)
  | vStr (s : String)
  | vList (l : List Value)
  | vDict (l : List (String × Value))

/-- Python truthiness of a `Value` (`bool(v)`). -/
def Value.truthy : Value → Bool
  | .vNone => false
  | .vBool b => b
  | .vInt n => n != 0
  | .vStr s => s != ""
  | .vList l => !l.isEmpty
  | .vDict l => !l.isEmpty

/-- Is the value a Python `str`? -/
def Value.isStr : Value → Bool
  | .vStr _ => true
  | _ => false

mutual
/-- Python `repr()` of a value, as used by `str()` on list/dict elements. -/
def pyRepr : Value → String
  | .vNone => "None"
  | .vBool b => if b then "True" else "False"
  | .vInt n => toString n
  | .vStr s => sq ++ s ++ sq
  | .vList l => "[" ++ pyReprSeq l ++ "]"
  | .vDict l => "\x7b" ++ pyReprItems l ++ "\x7d"

/-- Comma-separated `repr`s of the elements of a list value. -/
def pyReprSeq : List Value → String
  | [] => ""
  | [v] => pyRepr v
  | v :: rest => pyRepr v ++ ", " ++ pyReprSeq rest

/-- Comma-separated `repr`s of the key/value items of a dict value. -/
def pyReprItems : List (String × Value) → String
  | [] => ""
  | [(k, v)] => sq ++ k ++ sq ++ ": " ++ pyRepr v
  | (k, v) :: rest => sq ++ k ++ sq ++ ": " ++ pyRepr v ++ ", " ++ pyReprItems rest
end

/-- Python `str()` of a value, as interpolated into f-string error messages. -/
def pyToStr : Value → String
  | .vStr s => s
  | v => pyRepr v

/-- Raw entry record: a Python dict with string keys in insertion order. -/
abbrev RawEntry := List (String × Value)

/-- Exceptions the validation engine can actually raise. -/
inductive PyErr where
  | typeError
  | attributeError
deriving DecidableEq

/-! Validation engine, from `scripts/validation.py` (`RakhineLexiconValidator`). -/

/-- Character class of `myanmar_pattern`, the compiled regex
`^[က-႟ꩠ-ꩿ\s\.၊။]+$`: the Myanmar block, the
Myanmar-Extended-A block, whitespace, an (escaped) ASCII full stop, and the
two Myanmar punctuation marks U+104A and U+104B. -/
def myanmarPatternChar (c : Char) : Bool :=
  let n := c.toNat
  decide (0x1000 ≤ n ∧ n ≤ 0x109F) || decide (0xAA60 ≤ n ∧ n ≤ 0xAA7F) ||
  isPySpace c || c == '.' || c == '၊' || c == '။'

/-- Result of `myanmar_pattern.match(s)` being truthy.  The fully anchored
pattern `^[class]+$` matches exactly the non-empty strings all of whose
characters are in the class (the `$`-before-final-newline case of Python's `$`
adds nothing because `\n` is itself in the class via `\s`). -/
def myanmarMatch (s : String) : Bool :=
  !s.data.isEmpty && s.data.all myanmarPatternChar

/-- `RakhineLexiconValidator._validate_myanmar` on a string argument. -/
def validate_myanmar (text : String) : Bool :=
  if text = "" then false else myanmarMatch text

/-- `_validate_myanmar` on a dynamic value: non-`str` values fail the
`isinstance` guard and are rejected. -/
def validateMyanmarV : Value → Bool
  | .vStr s => validate_myanmar s
  | _ => false

/-- Result of `re.match(r'^rki_\d..$', s)` (at least four decimal digits after
`rki_`) being truthy.  `$` also matches just before a single trailing newline;
`\d` is modelled as ASCII digits, which is the only digit shape the claims
exercise. -/
def idFormatOk (s : String) : Bool :=
  match s.data with
  | 'r' :: 'k' :: 'i' :: '_' :: rest =>
    let core := if rest.getLast? == some '\n' then rest.dropLast else rest
    decide (4 ≤ core.length) && core.all Char.isDigit
  | _ => false

/-- The closed POS tag set `valid_pos` of the validator. -/
def valid_pos : List String :=
  ["noun", "verb", "adjective", "adverb",
   "pronoun", "particle", "classifier",
   "interjection", "conjunction", "numeral",
   "preposition", "postposition", "auxiliary"]

/-- `RakhineLexiconValidator._validate_pos` on a string: case-insensitive
membership in the closed POS set. -/
def validate_pos (pos : String) : Bool := valid_pos.contains (pyLower pos)

/-- Code points of the validator's `valid_rakhine_ipa_chars` set, listed in
source order (basic Latin, IPA letters, suprasegmentals, combining diacritics,
breves, tone accents, carons, umlauts, tildes, dots, underrings). -/
def validRakhineIpaCodes : List Nat :=
  [0x0061, 0x0062, 0x0063, 0x0064, 0x0065, 0x0066, 0x0067, 0x0068, 0x0069,
   0x006A, 0x006B, 0x006C, 0x006D, 0x006E, 0x006F, 0x0070, 0x0071, 0x0072,
   0x0073, 0x0074, 0x0075, 0x0076, 0x0077, 0x0078, 0x0079, 0x007A,
   0x0251, 0x00E6, 0x0250, 0x03B2, 0x0253, 0x0299, 0x00E7, 0x0255, 0x0256,
   0x00F0, 0x0257, 0x0259, 0x0258, 0x025B, 0x025C, 0x025D, 0x025E, 0x025F,
   0x0284, 0x0261, 0x0260, 0x0262, 0x0263, 0x0264, 0x0265, 0x0266, 0x0267,
   0x0127, 0x0268, 0x026A, 0x029D, 0x026D, 0x026C, 0x026B, 0x026E, 0x029F,
   0x0271, 0x026F, 0x0270, 0x0272, 0x014B, 0x0273, 0x0274, 0x00F8, 0x0275,
   0x0278, 0x03B8, 0x0153, 0x0276, 0x0298, 0x027A, 0x027B, 0x027D, 0x027E,
   0x0280, 0x0281, 0x0279, 0x027B, 0x0283, 0x0282, 0x0288, 0x028A, 0x028B,
   0x2C71, 0x028C, 0x028D, 0x026F, 0x028F, 0x0291, 0x0290, 0x0292, 0x0294,
   0x02A1, 0x0295, 0x02A2, 0x01C0, 0x01C1, 0x01C2, 0x01C3,
   0x02C8, 0x02CC, 0x02D0, 0x02D1, 0x02BC, 0x02B4, 0x02B0, 0x02B1, 0x02B2,
   0x02B7, 0x02E0, 0x02E4, 0x02DE, 0x2193, 0x2191, 0x2192, 0x2197, 0x2198,
   0x0329, 0x0325, 0x030A, 0x0324, 0x032A, 0x032C, 0x0330, 0x033A, 0x033C,
   0x033B, 0x031A, 0x0339, 0x031C, 0x031F, 0x0320, 0x0308, 0x033D,
   0x0103, 0x0115, 0x012D, 0x014F, 0x016D,
   0x00E0, 0x00E8, 0x00EC, 0x00F2, 0x00F9, 0x00E1, 0x00E9, 0x00ED, 0x00F3,
   0x00FA, 0x00E2, 0x00EA, 0x00EE, 0x00F4, 0x00FB,
   0x01CE, 0x011B, 0x01D0, 0x01D2, 0x01D4,
   0x00E4, 0x00EB, 0x00EF, 0x00F6, 0x00FC,
   0x00E3, 0x1EBD, 0x0129, 0x00F5, 0x0169,
   0x0227, 0x0117, 0x022F,
   0x1E01, 0x1E19, 0x1E2D, 0x1E75]

/-- Membership in `valid_rakhine_ipa_chars`. -/
def ipaCharInSet (c : Char) : Bool := validRakhineIpaCodes.contains c.toNat

/-- Membership in the punctuation allow-list `" .;,-"`. -/
def ipaPunct (c : Char) : Bool :=
  c == ' ' || c == '.' || c == ';' || c == ',' || c == '-'

/-- A body character the IPA rule lets through: in the valid set, in the
punctuation allow-list, or a combining diacritic U+0300 to U+036F. -/
def ipaCharOk (c : Char) : Bool :=
  ipaCharInSet c || ipaPunct c || decide (0x300 ≤ c.toNat ∧ c.toNat ≤ 0x36F)

/-- The delimiter-specific rejection message of `_validate_rakhine_ipa`. -/
def enclosedMsg : String := "IPA must be enclosed in /slashes/ or [brackets]"

/-- Message for the first offending body character, with its code point:
`Character 'c' (U+XXXX) not in valid IPA set`. -/
def ipaBadMsg (c : Char) : String :=
  "Character " ++ sq ++ c.toString ++ sq ++ " (U+" ++ toUpperHex4 c.toNat ++
  ") not in valid IPA set"

/-- The delimiter test of `_validate_rakhine_ipa`: starts and ends with `/`,
or starts with `[` and ends with `]`. -/
def ipaWrapped (s : String) : Bool :=
  (s.data.head? == some '/' && s.data.getLast? == some '/') ||
  (s.data.head? == some '[' && s.data.getLast? == some ']')

/-- The delimiter-stripped body `ipa[1:-1]`. -/
def ipaBody (s : String) : List Char := (s.data.drop 1).dropLast

/-- `RakhineLexiconValidator._validate_rakhine_ipa` on a string: returns the
`(is_valid, error)` pair of the source.  A whitespace-only body is the
`not ipa_content.strip()` early acceptance. -/
def validate_rakhine_ipa (ipa : String) : Bool × String :=
  if ipa = "" then (false, "Empty IPA")
  else if !ipaWrapped ipa then (false, enclosedMsg)
  else
    let content := ipaBody ipa
    if content.all isPySpace then (true, "")
    else
      match content.find? (fun c => !ipaCharOk c) with
      | some c => (false, ipaBadMsg c)
      | none => (true, "")

/-- `_validate_rakhine_ipa` on a dynamic value: falsy or non-`str` arguments
hit the `isinstance` guard and yield `(False, "Empty IPA")`. -/
def validateRakhineIpaV : Value → Bool × String
  | .vStr s => validate_rakhine_ipa s
  | _ => (false, "Empty IPA")

/-- Dict lookup on a raw record (`key in entry` / `entry[key]`). -/
def lookupV (k : String) (e : RawEntry) : Option Value := List.lookup k e

/-- Is required field `f` absent from the record or falsy
(`f not in entry or not entry[f]`)? -/
def fieldMissing (e : RawEntry) (f : String) : Bool :=
  match lookupV f e with
  | none => true
  | some v => !v.truthy

/-- The validator's `required_fields` list, in source order. -/
def required_fields : List String :=
  ["id", "rakhine", "romanization", "pos", "gloss_en"]

/-- Message appended for a missing required field. -/
def missingMsg (f : String) : String := "Missing required field: " ++ f

/-- Errors produced by the required-field loop of `validate_entry`, in field
order. -/
def requiredErrors (e : RawEntry) : List String :=
  (required_fields.filter (fieldMissing e)).map missingMsg

/-- The ID-format check of `validate_entry`.  When `id` is present but not a
string, `re.match` raises `TypeError`. -/
def idErrors (e : RawEntry) : Except PyErr (List String) :=
  match lookupV "id" e with
  | none => .ok []
  | some (.vStr s) =>
    .ok (if idFormatOk s then [] else ["Invalid ID format: " ++ s])
  | some _ => .error .typeError

/-- The script-conformance check of `validate_entry`. -/
def rakhineErrors (e : RawEntry) : List String :=
  match lookupV "rakhine" e with
  | none => []
  | some v =>
    if validateMyanmarV v then [] else ["Invalid Myanmar script: " ++ pyToStr v]

/-- The IPA check of `validate_entry`, run only when `ipa` is present and
truthy. -/
def ipaErrors (e : RawEntry) : List String :=
  match lookupV "ipa" e with
  | none => []
  | some v =>
    if !v.truthy then []
    else
      let r := validateRakhineIpaV v
      if r.1 then [] else ["Invalid IPA: " ++ (pyToStr v ++ (" - " ++ r.2))]

/-- The POS check of `validate_entry`.  When `pos` is present but not a
string, `pos.lower()` raises `AttributeError`. -/
def posErrors (e : RawEntry) : Except PyErr (List String) :=
  match lookupV "pos" e with
  | none => .ok []
  | some (.vStr s) =>
    .ok (if validate_pos s then [] else ["Invalid POS: " ++ s])
  | some _ => .error .attributeError

/-- `RakhineLexiconValidator.validate_entry`: runs the five rule groups in
source order, accumulating messages; an exception raised by the ID or POS
check propagates (discarding the messages accumulated so far), exactly as in
Python. -/
def validate_entry (e : RawEntry) : Except PyErr (Bool × List String) :=
  match idErrors e with
  | .error err => .error err
  | .ok e2 =>
    match posErrors e with
    | .error err => .error err
    | .ok e5 =>
      let errs := requiredErrors e ++ e2 ++ rakhineErrors e ++ ipaErrors e ++ e5
      .ok (errs.isEmpty, errs)

/-! Lexicon store, from `src/rki_lexicon/core.py`. -/

/-- The `Sense` dataclass: one meaning of an entry, with source defaults. -/
structure Sense where
  gloss_en : String
  gloss_my : Option String := none
  definition_en : Option String := none
  definition_my : Option String := none
  «example» : Option String := none
  example_translation : Option String := none
  dialect : Option String := none
  domain : Option String := none
deriving DecidableEq

/-- The `Etymology` dataclass. -/
structure Etymology where
  source : Option String := none
  original : Option String := none
  cognates : List String := []
  notes : Option String := none
deriving DecidableEq

/-- The `LexiconEntry` dataclass, fields in source order.  The dataclass
defaults `created`/`modified` to `datetime.now().isoformat()`; the model keeps
them as plain caller-supplied strings to stay deterministic. -/
structure LexiconEntry where
  id : String
  rakhine : String
  romanization : String
  pos : String
  senses : List Sense := []
  ipa : Option String := none
  syllable_structure : Option String := none
  tone : Option String := none
  root : Option String := none
  derivation : Option String := none
  inflection : Option String := none
  synonyms : List String := []
  antonyms : List String := []
  etymology : Option Etymology := none
  notes : Option String := none
  source : Option String := none
  created : String := ""
  modified : String := ""
deriving DecidableEq

/-- What `getattr(entry, field, None)` can produce on a `LexiconEntry`. -/
inductive FieldValue where
  | fvNone
  | fvStr (s : String)
  | fvStrList (l : List String)
  | fvSenseList (l : List Sense)
  | fvEtymology (e : Etymology)
deriving DecidableEq

/-- Lift an `Optional[str]` attribute to a `FieldValue`. -/
def optField : Option String → FieldValue
  | none => .fvNone
  | some s => .fvStr s

/-- `getattr(entry, field, None)`: attribute access by name over the declared
dataclass fields, `None` for any other name. -/
def getField (e : LexiconEntry) (f : String) : FieldValue :=
  match f with
  | "id" => .fvStr e.id
  | "rakhine" => .fvStr e.rakhine
  | "romanization" => .fvStr e.romanization
  | "pos" => .fvStr e.pos
  | "senses" => .fvSenseList e.senses
  | "ipa" => optField e.ipa
  | "syllable_structure" => optField e.syllable_structure
  | "tone" => optField e.tone
  | "root" => optField e.root
  | "derivation" => optField e.derivation
  | "inflection" => optField e.inflection
  | "synonyms" => .fvStrList e.synonyms
  | "antonyms" => .fvStrList e.antonyms
  | "etymology" =>
    match e.etymology with
    | none => .fvNone
    | some et => .fvEtymology et
  | "notes" => optField e.notes
  | "source" => optField e.source
  | "created" => .fvStr e.created
  | "modified" => .fvStr e.modified
  | _ => .fvNone

/-- Outcome of one iteration of the `search` loop on one entry. -/
inductive MatchOutcome where
  | keep
  | skip
  | crash
deriving DecidableEq

/-- One iteration of `RakhineLexicon.search`: falsy field values are skipped;
a string value is compared exactly or by case-insensitive substring; a list
value is scanned element-wise by case-insensitive substring (the `exact` flag
is never consulted there).  A non-empty `senses` value reaches
`item.lower()` on a `Sense` object and raises `AttributeError` (`crash`). -/
def entryMatch (query f : String) (exact : Bool) (e : LexiconEntry) : MatchOutcome :=
  match getField e f with
  | .fvNone => .skip
  | .fvStr s =>
    if s = "" then .skip
    else if exact then (if query = s then .keep else .skip)
    else if containsStr (pyLower query) (pyLower s) then .keep else .skip
  | .fvStrList l =>
    if l.isEmpty then .skip
    else if l.any (fun item => containsStr (pyLower query) (pyLower item)) then .keep
    else .skip
  | .fvSenseList l => if l.isEmpty then .skip else .crash
  | .fvEtymology _ => .skip

/-- `RakhineLexicon.search(query, field, exact)` over the store's entries in
iteration order.  `none` models an uncaught exception escaping the loop; in
Python the defaults are `field="rakhine"` and `exact=False`. -/
def search (query f : String) (exact : Bool) : List LexiconEntry → Option (List LexiconEntry)
  | [] => some []
  | e :: rest =>
    match entryMatch query f exact e with
    | .crash => none
    | .keep => (search query f exact rest).map (e :: ·)
    | .skip => search query f exact rest

/-- A finding of `RakhineLexicon.validate`: one of the dicts it appends, with
keys `entry_id`, `type`, `field`, `message`. -/
structure Finding where
  entryId : String
  type : String
  field : String
  message : String
deriving DecidableEq

/-- The per-sense loop of `RakhineLexicon.validate`: one indexed finding per
sense whose `gloss_en` is falsy. -/
def senseGlossFindings (entryId : String) (senses : List Sense) : List Finding :=
  (senses.enum.filter (fun p => p.2.gloss_en = "")).map
    (fun p =>
      ⟨entryId, "missing_field", "sense_" ++ toString p.1 ++ "_gloss_en",
       "Sense " ++ toString p.1 ++ " missing English gloss"⟩)

/-- The body of `RakhineLexicon.validate`'s entry loop, appending to the
accumulated error list exactly as the source does. -/
def validateStep (errors : List Finding) (p : String × LexiconEntry) : List Finding :=
  let entryId := p.1
  let entry := p.2
  let errors :=
    if entry.rakhine = "" then
      errors ++ [⟨entryId, "missing_field", "rakhine", "Missing Rakhine word"⟩]
    else errors
  let errors :=
    if entry.romanization = "" then
      errors ++ [⟨entryId, "missing_field", "romanization", "Missing romanization"⟩]
    else errors
  let errors :=
    if entry.pos = "" then
      errors ++ [⟨entryId, "missing_field", "pos", "Missing part of speech"⟩]
    else errors
  if entry.senses.isEmpty then
    errors ++ [⟨entryId, "missing_field", "senses", "Entry has no senses"⟩]
  else errors ++ senseGlossFindings entryId entry.senses

/-- `RakhineLexicon.validate`: iterate `self.entries.items()` (a list of
`(entry_id, entry)` pairs in insertion order), accumulating findings. -/
def lexiconValidate (entries : List (String × LexiconEntry)) : List Finding :=
  entries.foldl validateStep []

/-- Lift an `Optional[str]` field into a raw-record `Value` for `asdict`. -/
def optV : Option String → Value
  | none => .vNone
  | some s => .vStr s

/-- `dataclasses.asdict` of a `Sense`, keys in field order. -/
def Sense.toDictV (s : Sense) : Value :=
  .vDict [("gloss_en", .vStr s.gloss_en), ("gloss_my", optV s.gloss_my),
          ("definition_en", optV s.definition_en),
          ("definition_my", optV s.definition_my),
          ("example", optV s.«example»),
          ("example_translation", optV s.example_translation),
          ("dialect", optV s.dialect), ("domain", optV s.domain)]

/-- `dataclasses.asdict` of an `Etymology`. -/
def Etymology.toDictV (et : Etymology) : Value :=
  .vDict [("source", optV et.source), ("original", optV et.original),
          ("cognates", .vList (et.cognates.map Value.vStr)),
          ("notes", optV et.notes)]

/-- `LexiconEntry.to_dict`: the canonical raw-record serialization, keys in
dataclass field order with senses and etymology as nested dicts. -/
def LexiconEntry.to_dict (e : LexiconEntry) : RawEntry :=
  [("id", .vStr e.id), ("rakhine", .vStr e.rakhine),
   ("romanization", .vStr e.romanization), ("pos", .vStr e.pos),
   ("senses", .vList (e.senses.map Sense.toDictV)),
   ("ipa", optV e.ipa), ("syllable_structure", optV e.syllable_structure),
   ("tone", optV e.tone), ("root", optV e.root),
   ("derivation", optV e.derivation), ("inflection", optV e.inflection),
   ("synonyms", .vList (e.synonyms.map Value.vStr)),
   ("antonyms", .vList (e.antonyms.map Value.vStr)),
   ("etymology",
     match e.etymology with
     | none => .vNone
     | some et => et.toDictV),
   ("notes", optV e.notes), ("source", optV e.source),
   ("created", .vStr e.created), ("modified", .vStr e.modified)]

/-! Audio link store, from `scripts/audio_integration.py` (`AudioIntegrator`).
The sqlite tables become in-memory lists; `hashlib`/`soundfile` are external
collaborators, so a readable file is represented by the facts they produce
(`AudioFileData`), and an unreadable file by their raised exception. -/

/-- One row of the `audio_files` table. -/
structure AudioRecord where
  id : Nat
  fileHash : String
  filename : String
  filepath : String
  entryId : Option String
  speakerId : Option String
  dialect : Option String
  gender : Option String
  duration : Rat
  sampleRate : Nat
  channels : Nat
  format : String
  filesize : Nat
  recordingDate : Option String
  qualityScore : Rat
deriving DecidableEq

/-- One row of the `speakers` table (`other_languages` is stored
JSON-serialized in sqlite; the model keeps the list itself). -/
structure Speaker where
  speakerId : String
  gender : Option String
  age : Option Int
  dialect : Option String
  nativeSpeaker : Bool
  location : Option String
  otherLanguages : List String
  notes : String
deriving DecidableEq

/-- The raw audio import metadata map of §6: every key optional. -/
structure AudioMetadata where
  entryId : Option String := none
  speakerId : Option String := none
  dialect : Option String := none
  gender : Option String := none
  speakerGender : Option String := none
  speakerAge : Option Int := none
  nativeSpeaker : Option Bool := none
  recordingDate : Option String := none
  qualityScore : Option Rat := none
  recordingLocation : Option String := none
  otherLanguages : Option (List String) := none
  speakerNotes : Option String := none
deriving DecidableEq

/-- Facts `import_audio_file` reads from a readable file before touching the
database: the MD5 content hash (`calculate_file_hash`) and the container facts
from `soundfile` (`duration = frames / samplerate`) plus `stat().st_size`. -/
structure AudioFileData where
  hash : String
  duration : Rat
  sampleRate : Nat
  channels : Nat
  format : String
  filesize : Nat
deriving DecidableEq

/-- The lexicon database state: the two tables the integrator writes
(`audio_features` is never written by the modelled operations) and the next
`AUTOINCREMENT` id. -/
structure AudioDB where
  audioFiles : List AudioRecord
  speakers : List Speaker
  nextId : Nat
deriving DecidableEq

/-- `INSERT OR REPLACE INTO speakers`: replace the row with the same primary
key, else append. -/
def upsertSpeaker (l : List Speaker) (sp : Speaker) : List Speaker :=
  if l.any (fun s => s.speakerId == sp.speakerId) then
    l.map (fun s => if s.speakerId == sp.speakerId then sp else s)
  else l ++ [sp]

/-- Python truthiness of an optional string (`bool(metadata.get(k))`). -/
def optTruthy : Option String → Bool
  | none => false
  | some s => s != ""

/-- `AudioIntegrator.import_audio_file` on a readable file: if a row with the
same content hash exists, return its id and change nothing; otherwise insert a
new `audio_files` row and, when `metadata.get('speaker_id')` is truthy, upsert
the speaker row. -/
def importAudioFile (db : AudioDB) (filename filepath : String)
    (d : AudioFileData) (m : AudioMetadata) : AudioDB × Nat :=
  match db.audioFiles.find? (fun a => a.fileHash == d.hash) with
  | some a => (db, a.id)
  | none =>
    let newRow : AudioRecord :=
      { id := db.nextId, fileHash := d.hash, filename := filename,
        filepath := filepath, entryId := m.entryId, speakerId := m.speakerId,
        dialect := m.dialect, gender := m.gender, duration := d.duration,
        sampleRate := d.sampleRate, channels := d.channels, format := d.format,
        filesize := d.filesize, recordingDate := m.recordingDate,
        qualityScore := m.qualityScore.getD 1 }
    let db1 : AudioDB :=
      { db with audioFiles := db.audioFiles ++ [newRow], nextId := db.nextId + 1 }
    let sp : Speaker :=
      { speakerId := m.speakerId.getD "", gender := m.speakerGender,
        age := m.speakerAge, dialect := m.dialect,
        nativeSpeaker := m.nativeSpeaker.getD true,
        location := m.recordingLocation,
        otherLanguages := m.otherLanguages.getD [],
        notes := m.speakerNotes.getD "" }
    let db2 : AudioDB :=
      if optTruthy m.speakerId then
        { db1 with speakers := upsertSpeaker db1.speakers sp }
      else db1
    (db2, newRow.id)

/-- `AudioIntegrator.link_audio_to_lexicon`: set the weak `entry_id` reference
on the row with the given id. -/
def linkAudioToLexicon (db : AudioDB) (audioFileId : Nat) (entryId : String) : AudioDB :=
  let setLink := fun (a : AudioRecord) =>
    if a.id == audioFileId then { a with entryId := some entryId } else a
  { db with audioFiles := db.audioFiles.map setLink }

/-- A file found by the directory glob: its basename, its path, and either the
facts read from it or `none` when opening it raises (`IoError`). -/
structure DirFile where
  name : String
  path : String
  content : Option AudioFileData
deriving DecidableEq

/-- `pathlib.Path(name).stem` for a filename with a normal non-empty
extension: the name up to its last dot. -/
def pathStem (name : String) : String :=
  let parts := name.splitOn "."
  if parts.length ≤ 1 then name
  else String.intercalate "." parts.dropLast

/-- The fallback parse of `batch_import_directory`: split the stem on `_` and
fill `entry_id`, `speaker_id`, `dialect`, `gender` positionally wherever the
explicit metadata value is missing or falsy. -/
def fillFromFilename (name : String) (m : AudioMetadata) : AudioMetadata :=
  let parts := (pathStem name).splitOn "_"
  let m := if decide (1 ≤ parts.length) && !optTruthy m.entryId then
      { m with entryId := some (parts.getD 0 "") } else m
  let m := if decide (2 ≤ parts.length) && !optTruthy m.speakerId then
      { m with speakerId := some (parts.getD 1 "") } else m
  let m := if decide (3 ≤ parts.length) && !optTruthy m.dialect then
      { m with dialect := some (parts.getD 2 "") } else m
  if decide (4 ≤ parts.length) && !optTruthy m.gender then
    { m with gender := some (parts.getD 3 "") } else m

/-- One per-file outcome dict of the batch report: `success: True` with the id
and link flag, or `success: False` with the error text. -/
inductive ImportResult where
  | ok (filename : String) (audioFileId : Nat) (entryLinked : Bool)
  | failed (filename : String) (error : String)
deriving DecidableEq

/-- The `filename` key every outcome dict carries. -/
def ImportResult.filenameOf : ImportResult → String
  | .ok f _ _ => f
  | .failed f _ => f

/-- Is the outcome a failure (`success: False`)? -/
def ImportResult.isFailure : ImportResult → Bool
  | .ok _ _ _ => false
  | .failed _ _ => true

/-- The `str(e)` of the `open` failure on an unreadable path, as recorded in
the failure outcome. -/
def ioErrorMessage (path : String) : String :=
  "[Errno 2] No such file or directory: " ++ sq ++ path ++ sq

/-- `AudioIntegrator.batch_import_directory`: for each globbed file derive the
metadata (explicit entry first, then filename fallback), try the import plus
the optional link inside `try`, and record one outcome per file; an exception
becomes a failure outcome and the loop continues. -/
def batchImportDirectory (db : AudioDB) (files : List DirFile)
    (metadataMap : List (String × AudioMetadata)) : AudioDB × List ImportResult :=
  match files with
  | [] => (db, [])
  | f :: rest =>
    let m0 := (List.lookup f.name metadataMap).getD {}
    let m := fillFromFilename f.name m0
    match f.content with
    | none =>
      let r := ImportResult.failed f.name (ioErrorMessage f.path)
      let p := batchImportDirectory db rest metadataMap
      (p.1, r :: p.2)
    | some d =>
      let q := importAudioFile db f.name f.path d m
      let db1 := if optTruthy m.entryId then
          linkAudioToLexicon q.1 q.2 (m.entryId.getD "") else q.1
      let r := ImportResult.ok f.name q.2 (optTruthy m.entryId)
      let p := batchImportDirectory db1 rest metadataMap
      (p.1, r :: p.2)

/-! Supporting lemmas. -/

theorem str_data_append (a b : String) : (a ++ b).data = a.data ++ b.data := by
  cases a
  cases b
  rfl

theorem startsWithL_self_append (l x : List Char) : startsWithL l (l ++ x) = true := by
  induction l with
  | nil => rfl
  | cons c t ih => simp [startsWithL, ih]

/-- Recognizer for the required-field messages of the validation engine. -/
def isMissingFieldMsg (m : String) : Bool :=
  startsWithL "Missing required field: ".data m.data

theorem isMissingFieldMsg_missingMsg (f : String) :
    isMissingFieldMsg (missingMsg f) = true := by
  unfold isMissingFieldMsg missingMsg
  rw [str_data_append]
  exact startsWithL_self_append _ _

theorem not_missing_invalid_id (x : String) :
    isMissingFieldMsg ("Invalid ID format: " ++ x) = false := by
  unfold isMissingFieldMsg
  rw [str_data_append]
  rfl

theorem not_missing_invalid_myanmar (x : String) :
    isMissingFieldMsg ("Invalid Myanmar script: " ++ x) = false := by
  unfold isMissingFieldMsg
  rw [str_data_append]
  rfl

theorem not_missing_invalid_ipa (x : String) :
    isMissingFieldMsg ("Invalid IPA: " ++ x) = false := by
  unfold isMissingFieldMsg
  rw [str_data_append]
  rfl

theorem not_missing_invalid_pos (x : String) :
    isMissingFieldMsg ("Invalid POS: " ++ x) = false := by
  unfold isMissingFieldMsg
  rw [str_data_append]
  rfl

theorem filter_missing_requiredErrors (e : RawEntry) :
    (requiredErrors e).filter isMissingFieldMsg = requiredErrors e := by
  apply List.filter_eq_self.mpr
  intro m hm
  obtain ⟨f, _, rfl⟩ := List.mem_map.mp hm
  exact isMissingFieldMsg_missingMsg f

theorem filter_missing_idErrors (e : RawEntry) (l : List String)
    (h : idErrors e = .ok l) : l.filter isMissingFieldMsg = [] := by
  unfold idErrors at h
  cases hk : lookupV "id" e with
  | none =>
    rw [hk] at h
    injection h with h2
    subst h2
    rfl
  | some v =>
    rw [hk] at h
    cases v with
    | vStr s =>
      injection h with h2
      subst h2
      by_cases hid : idFormatOk s = true
      · simp [hid]
      · simp [hid, not_missing_invalid_id]
    | vNone => exact Except.noConfusion h
    | vBool b => exact Except.noConfusion h
    | vInt n => exact Except.noConfusion h
    | vList l2 => exact Except.noConfusion h
    | vDict l2 => exact Except.noConfusion h

theorem filter_missing_posErrors (e : RawEntry) (l : List String)
    (h : posErrors e = .ok l) : l.filter isMissingFieldMsg = [] := by
  unfold posErrors at h
  cases hk : lookupV "pos" e with
  | none =>
    rw [hk] at h
    injection h with h2
    subst h2
    rfl
  | some v =>
    rw [hk] at h
    cases v with
    | vStr s =>
      injection h with h2
      subst h2
      by_cases hp : validate_pos s = true
      · simp [hp]
      · simp [hp, not_missing_invalid_pos]
    | vNone => exact Except.noConfusion h
    | vBool b => exact Except.noConfusion h
    | vInt n => exact Except.noConfusion h
    | vList l2 => exact Except.noConfusion h
    | vDict l2 => exact Except.noConfusion h

theorem filter_missing_rakhineErrors (e : RawEntry) :
    (rakhineErrors e).filter isMissingFieldMsg = [] := by
  unfold rakhineErrors
  cases lookupV "rakhine" e with
  | none => rfl
  | some v =>
    by_cases hm : validateMyanmarV v = true
    · simp [hm]
    · simp [hm, not_missing_invalid_myanmar]

theorem filter_missing_ipaErrors (e : RawEntry) :
    (ipaErrors e).filter isMissingFieldMsg = [] := by
  unfold ipaErrors
  cases lookupV "ipa" e with
  | none => rfl
  | some v =>
    by_cases ht : v.truthy = true
    · by_cases hv : (validateRakhineIpaV v).1 = true
      · simp [ht, hv]
      · simp [ht, hv, not_missing_invalid_ipa]
    · simp [ht]

theorem idErrors_ok_of_isStr (e : RawEntry)
    (h : ∀ v, lookupV "id" e = some v → v.isStr = true) :
    ∃ l, idErrors e = .ok l := by
  unfold idErrors
  cases hk : lookupV "id" e with
  | none => exact ⟨[], rfl⟩
  | some v =>
    cases v with
    | vStr s => exact ⟨_, rfl⟩
    | vNone => exact absurd (h _ hk) (by simp [Value.isStr])
    | vBool b => exact absurd (h _ hk) (by simp [Value.isStr])
    | vInt n => exact absurd (h _ hk) (by simp [Value.isStr])
    | vList l2 => exact absurd (h _ hk) (by simp [Value.isStr])
    | vDict l2 => exact absurd (h _ hk) (by simp [Value.isStr])

theorem posErrors_ok_of_isStr (e : RawEntry)
    (h : ∀ v, lookupV "pos" e = some v → v.isStr = true) :
    ∃ l, posErrors e = .ok l := by
  unfold posErrors
  cases hk : lookupV "pos" e with
  | none => exact ⟨[], rfl⟩
  | some v =>
    cases v with
    | vStr s => exact ⟨_, rfl⟩
    | vNone => exact absurd (h _ hk) (by simp [Value.isStr])
    | vBool b => exact absurd (h _ hk) (by simp [Value.isStr])
    | vInt n => exact absurd (h _ hk) (by simp [Value.isStr])
    | vList l2 => exact absurd (h _ hk) (by simp [Value.isStr])
    | vDict l2 => exact absurd (h _ hk) (by simp [Value.isStr])

theorem validate_entry_ok_form (e : RawEntry)
    (hid : ∀ v, lookupV "id" e = some v → v.isStr = true)
    (hpos : ∀ v, lookupV "pos" e = some v → v.isStr = true) :
    ∃ l2 l5, idErrors e = .ok l2 ∧ posErrors e = .ok l5 ∧
      validate_entry e =
        .ok ((requiredErrors e ++ l2 ++ rakhineErrors e ++ ipaErrors e ++ l5).isEmpty,
             requiredErrors e ++ l2 ++ rakhineErrors e ++ ipaErrors e ++ l5) := by
  obtain ⟨l2, h2⟩ := idErrors_ok_of_isStr e hid
  obtain ⟨l5, h5⟩ := posErrors_ok_of_isStr e hpos
  refine ⟨l2, l5, h2, h5, ?_⟩
  unfold validate_entry
  rw [h2, h5]

/-- Modelled from the amended wording of the store-validate claim: the
per-entry findings of `RakhineLexicon.validate` — non-empty `rakhine`,
`romanization` and `pos`, non-empty `senses`, and per-sense `gloss_en` — as an
independent flat-list definition to compare with the source's loop. -/
def entryFindings (entryId : String) (e : LexiconEntry) : List Finding :=
  (if e.rakhine = "" then
    [⟨entryId, "missing_field", "rakhine", "Missing Rakhine word"⟩] else []) ++
  (if e.romanization = "" then
    [⟨entryId, "missing_field", "romanization", "Missing romanization"⟩] else []) ++
  (if e.pos = "" then
    [⟨entryId, "missing_field", "pos", "Missing part of speech"⟩] else []) ++
  (if e.senses.isEmpty then
    [⟨entryId, "missing_field", "senses", "Entry has no senses"⟩]
   else senseGlossFindings entryId e.senses)

theorem validateStep_eq (errors : List Finding) (p : String × LexiconEntry) :
    validateStep errors p = errors ++ entryFindings p.1 p.2 := by
  unfold validateStep entryFindings
  by_cases h1 : p.2.rakhine = "" <;>
    by_cases h2 : p.2.romanization = "" <;>
      by_cases h3 : p.2.pos = "" <;>
        by_cases h4 : p.2.senses.isEmpty = true <;>
          simp [h1, h2, h3, h4, List.append_assoc]

theorem foldl_validateStep (init : List Finding) (entries : List (String × LexiconEntry)) :
    entries.foldl validateStep init = init ++ entries.flatMap (fun p => entryFindings p.1 p.2) := by
  induction entries generalizing init with
  | nil => simp
  | cons p rest ih => simp [List.foldl_cons, validateStep_eq, ih, List.append_assoc]

theorem search_no_crash_filter (q fld : String) (ex : Bool) (entries : List LexiconEntry)
    (h : ∀ e ∈ entries, entryMatch q fld ex e ≠ .crash) :
    search q fld ex entries =
      some (entries.filter (fun e => entryMatch q fld ex e == .keep)) := by
  induction entries with
  | nil => rfl
  | cons e rest ih =>
    have he := h e (List.mem_cons_self e rest)
    have hrest : ∀ x ∈ rest, entryMatch q fld ex x ≠ .crash :=
      fun x hx => h x (List.mem_cons_of_mem e hx)
    cases hm : entryMatch q fld ex e with
    | crash => exact absurd hm he
    | keep => simp [search, hm, ih hrest, List.filter_cons]
    | skip => simp [search, hm, ih hrest, List.filter_cons]

theorem entryMatch_strList_ne_crash (q fld : String) (ex : Bool) (e : LexiconEntry)
    (l : List String) (hg : getField e fld = .fvStrList l) :
    entryMatch q fld ex e ≠ .crash := by
  unfold entryMatch
  rw [hg]
  by_cases hl : l.isEmpty = true
  · simp [hl]
  · by_cases ha : l.any (fun item => containsStr (pyLower q) (pyLower item)) = true <;>
      simp [hl, ha]

/-! Concrete inputs used by witnesses and counterexamples. -/

/-- A stored audio row with content hash `abc123`. -/
def demoAudioRecord : AudioRecord :=
  { id := 1, fileHash := "abc123", filename := "a.wav", filepath := "data/a.wav",
    entryId := none, speakerId := none, dialect := none, gender := none,
    duration := 1, sampleRate := 16000, channels := 1, format := "WAV-PCM_16",
    filesize := 32000, recordingDate := none, qualityScore := 1 }

/-- A database already holding `demoAudioRecord`. -/
def demoAudioDB : AudioDB :=
  { audioFiles := [demoAudioRecord], speakers := [], nextId := 2 }

/-- The facts read from a byte-identical copy of the stored file: same hash. -/
def demoFileData : AudioFileData :=
  { hash := "abc123", duration := 1, sampleRate := 16000, channels := 1,
    format := "WAV-PCM_16", filesize := 32000 }

/-- An empty database for the batch-import witness. -/
def demoEmptyDB : AudioDB := { audioFiles := [], speakers := [], nextId := 1 }

/-- Batch of one readable and one unreadable file. -/
def demoBatchFiles : List DirFile :=
  [{ name := "rki_0001_sp1_sittwe_f.wav", path := "dir/rki_0001_sp1_sittwe_f.wav",
     content := some demoFileData },
   { name := "rki_0002_sp2.wav", path := "dir/rki_0002_sp2.wav", content := none }]

/-- Store entry whose first sense has `gloss_en = "water"`. -/
def demoWaterEntry : LexiconEntry :=
  { id := "rki_0002", rakhine := "ရေ", romanization := "re", pos := "noun",
    senses := [{ gloss_en := "water" }] }

/-- Entry with an invalid POS tag but nothing else wrong. -/
def demoPosEntry : LexiconEntry :=
  { id := "rki_0001", rakhine := "လမ်", romanization := "lam", pos := "xyz",
    senses := [{ gloss_en := "road" }] }

/-- Entry with two synonyms both matching the query `water`. -/
def demoSynonymEntry : LexiconEntry :=
  { id := "rki_0001", rakhine := "လမ်", romanization := "lam", pos := "noun",
    senses := [{ gloss_en := "road" }], synonyms := ["Water", "watering"] }

/-- Raw record whose `gloss_en` lives only on the first sense. -/
def demoSensesRecord : RawEntry :=
  [("id", .vStr "rki_0002"), ("rakhine", .vStr "ရေ"), ("romanization", .vStr "re"),
   ("pos", .vStr "noun"),
   ("senses", .vList [.vDict [("gloss_en", .vStr "water")]])]

/-- Raw record with every required field present and non-empty. -/
def demoValidRecord : RawEntry :=
  [("id", .vStr "rki_0001"), ("rakhine", .vStr "လမ်"),
   ("romanization", .vStr "lam"), ("pos", .vStr "noun"),
   ("gloss_en", .vStr "road")]

/-- Raw record missing `romanization` and `gloss_en`. -/
def demoPartialRecord : RawEntry :=
  [("id", .vStr "rki_0001"), ("rakhine", .vStr "လမ်"), ("pos", .vStr "noun")]

/-- The error list `validate_entry` returns, empty when it raises: the claim
formalization's view of the engine's findings for one record. -/
def validateEntryErrors (e : RawEntry) : List String :=
  match validate_entry e with
  | .ok p => p.2
  | .error _ => []

/-- First-sense `gloss_en` of a raw record, as the store-validate claim reads
it. -/
def firstSenseGloss (e : RawEntry) : Option Value :=
  match lookupV "senses" e with
  | some (.vList (.vDict s :: _)) => List.lookup "gloss_en" s
  | _ => none

/-- The required-field test as the claim words it: top-level keys for `id`,
`rakhine`, `romanization`, `pos`, but `gloss_en` taken from the primary
(first) sense. -/
def claimFieldMissing (e : RawEntry) (f : String) : Bool :=
  if f == "gloss_en" then
    match firstSenseGloss e with
    | none => true
    | some v => !v.truthy
  else fieldMissing e f

/-- The script-conformance character set exactly as the claim words it: the
two Myanmar blocks, whitespace, and the two Myanmar punctuation marks — with
no ASCII full stop. -/
def claimScriptChar (c : Char) : Bool :=
  let n := c.toNat
  decide (0x1000 ≤ n ∧ n ≤ 0x109F) || decide (0xAA60 ≤ n ∧ n ≤ 0xAA7F) ||
  isPySpace c || c == '၊' || c == '။'

/-! Claim theorems. -/

/-- C1: importing a byte-identical file twice is idempotent — when a row with
the file's content hash already exists, `import_audio_file` returns that
row's id, the row count is unchanged, and no other write happens (in
particular no speaker upsert): the whole store is returned untouched. -/
theorem importAudioFile_dedup_idempotent (db : AudioDB) (filename filepath : String)
    (d : AudioFileData) (m : AudioMetadata) (a : AudioRecord)
    (h : db.audioFiles.find? (fun x => x.fileHash == d.hash) = some a) :
    importAudioFile db filename filepath d m = (db, a.id) ∧
    (importAudioFile db filename filepath d m).1.audioFiles.length =
      db.audioFiles.length ∧
    (importAudioFile db filename filepath d m).1.speakers = db.speakers := by
  unfold importAudioFile
  rw [h]
  exact ⟨rfl, rfl, rfl⟩

/-- C1 witness: re-importing the stored demo file returns id 1 and leaves the
database unchanged. -/
theorem importAudioFile_dedup_idempotent_witness :
    importAudioFile demoAudioDB "a_copy.wav" "data/a_copy.wav" demoFileData {} =
      (demoAudioDB, demoAudioRecord.id) ∧
    (importAudioFile demoAudioDB "a_copy.wav" "data/a_copy.wav" demoFileData
      {}).1.audioFiles.length = demoAudioDB.audioFiles.length ∧
    (importAudioFile demoAudioDB "a_copy.wav" "data/a_copy.wav" demoFileData
      {}).1.speakers = demoAudioDB.speakers :=
  importAudioFile_dedup_idempotent demoAudioDB "a_copy.wav" "data/a_copy.wav"
    demoFileData {} demoAudioRecord (by rfl)

/-- C2 counterexample: the store-level `validate` does not reproduce the
Validation Engine's findings.  On a store holding one entry with POS `xyz`,
`RakhineLexicon.validate` returns no findings while `validate_entry` on the
entry's canonical record reports an invalid POS (and a missing flat
`gloss_en`), so the claimed equality of finding streams fails. -/
theorem lexiconValidate_engine_counterexample :
    ¬ (∀ entries : List (String × LexiconEntry),
        (lexiconValidate entries).map (fun fd => (fd.entryId, fd.message)) =
          entries.flatMap
            (fun p => (validateEntryErrors p.2.to_dict).map (fun msg => (p.1, msg)))) := by
  intro h
  exact absurd (h [("rki_0001", demoPosEntry)]) (by decide)

/-- C2 (amended): the store-level `validate` returns a flat list of
`entry_id`-tagged findings, one block per stored entry, produced by the
required-field rules it actually implements (non-empty `rakhine`,
`romanization`, `pos`, non-empty `senses`, per-sense `gloss_en`); it does not
run the Validation Engine's ID-format, script, IPA or POS rules. -/
theorem lexiconValidate_flat_findings (entries : List (String × LexiconEntry)) :
    lexiconValidate entries = entries.flatMap (fun p => entryFindings p.1 p.2) := by
  unfold lexiconValidate
  rw [foldl_validateStep]
  simp

/-- C3 counterexample: `validate_entry` reads `gloss_en` as a top-level key,
not from the primary sense.  On a record whose first sense does carry
`gloss_en = "water"`, it still reports `Missing required field: gloss_en`,
refuting the claim's description of where the field is taken from. -/
theorem validate_entry_first_sense_counterexample :
    ¬ (∀ (e : RawEntry) (b : Bool) (errs : List String),
        validate_entry e = .ok (b, errs) →
        ∀ f ∈ required_fields,
          errs.count (missingMsg f) =
            (if claimFieldMissing e f = true then 1 else 0)) := by
  intro h
  have h1 := h demoSensesRecord false ["Missing required field: gloss_en"]
    (by rfl) "gloss_en" (by decide)
  exact absurd h1 (by decide)

/-- C3 (amended): for every raw record whose `id` and `pos` values, when
present, are strings (so that `validate_entry` returns), the error list
contains exactly one `Missing required field: f` message, in field order, for
each top-level required field `f` (`id`, `rakhine`, `romanization`, `pos`,
`gloss_en`) that is absent or empty — none skipped, none duplicated. -/
theorem validate_entry_missing_required (e : RawEntry)
    (hid : ∀ v, lookupV "id" e = some v → v.isStr = true)
    (hpos : ∀ v, lookupV "pos" e = some v → v.isStr = true) :
    ∃ b errs, validate_entry e = .ok (b, errs) ∧
      errs.filter isMissingFieldMsg =
        (required_fields.filter (fieldMissing e)).map missingMsg := by
  obtain ⟨l2, l5, h2, h5, hv⟩ := validate_entry_ok_form e hid hpos
  refine ⟨_, _, hv, ?_⟩
  rw [List.filter_append, List.filter_append, List.filter_append,
      List.filter_append, filter_missing_requiredErrors,
      filter_missing_idErrors e l2 h2, filter_missing_rakhineErrors,
      filter_missing_ipaErrors, filter_missing_posErrors e l5 h5]
  simp [requiredErrors]

/-- C3 witness: on the record missing `romanization` and `gloss_en`, exactly
those two messages appear. -/
theorem validate_entry_missing_required_witness :
    ∃ b errs, validate_entry demoPartialRecord = .ok (b, errs) ∧
      errs.filter isMissingFieldMsg =
        ["Missing required field: romanization",
         "Missing required field: gloss_en"] := by
  obtain ⟨b, errs, h1, h2⟩ := validate_entry_missing_required demoPartialRecord
    (by intro v hv; rw [show lookupV "id" demoPartialRecord =
          some (.vStr "rki_0001") from rfl] at hv; cases hv; rfl)
    (by intro v hv; rw [show lookupV "pos" demoPartialRecord =
          some (.vStr "noun") from rfl] at hv; cases hv; rfl)
  exact ⟨b, errs, h1, by rw [h2]; rfl⟩

/-- C4 evaluation at the failing input: the store's own test and the spec
expect `search("water", field="gloss_en")` to return the matching entry, but
`gloss_en` is not a `LexiconEntry` attribute, so `getattr` yields `None` and
every entry is skipped — the search returns the empty list.  The
`"nonexistent"` half of the claim does hold. -/
theorem search_gloss_en_returns_empty :
    search "water" "gloss_en" false [demoWaterEntry] = some [] ∧
    demoWaterEntry.senses.map Sense.gloss_en = ["water"] ∧
    search "nonexistent" "rakhine" false [demoWaterEntry] = some [] :=
  ⟨rfl, rfl, rfl⟩

/-- C5 counterexample: `validate_entry` is not total — a `None`-valued `id`
reaches `re.match` and raises `TypeError`, a `None`-valued `pos` reaches
`pos.lower()` and raises `AttributeError`, so it does not always return an
`(is_valid, errors)` pair. -/
theorem validate_entry_raises_counterexample :
    validate_entry [("id", Value.vNone)] = .error .typeError ∧
    validate_entry [("pos", Value.vNone)] = .error .attributeError ∧
    ¬ (∀ e : RawEntry, ∃ b errs, validate_entry e = .ok (b, errs)) := by
  refine ⟨rfl, rfl, ?_⟩
  intro h
  obtain ⟨b, errs, hb⟩ := h [("id", Value.vNone)]
  rw [show validate_entry [("id", Value.vNone)] = .error .typeError from rfl] at hb
  exact Except.noConfusion hb

/-- C5 (amended): for every raw record whose `id` and `pos` values, when
present, are strings, `validate_entry` never throws and returns a pair
`(is_valid, errors)` with `is_valid` true exactly when `errors` is empty. -/
theorem validate_entry_total_sound (e : RawEntry)
    (hid : ∀ v, lookupV "id" e = some v → v.isStr = true)
    (hpos : ∀ v, lookupV "pos" e = some v → v.isStr = true) :
    ∃ b errs, validate_entry e = .ok (b, errs) ∧ (b = true ↔ errs = []) := by
  obtain ⟨l2, l5, h2, h5, hv⟩ := validate_entry_ok_form e hid hpos
  exact ⟨_, _, hv, by simp⟩

/-- C5 witness: a fully valid record returns `(True, [])`. -/
theorem validate_entry_total_sound_witness :
    ∃ b errs, validate_entry demoValidRecord = .ok (b, errs) ∧
      (b = true ↔ errs = []) :=
  validate_entry_total_sound demoValidRecord
    (by intro v hv; rw [show lookupV "id" demoValidRecord =
          some (.vStr "rki_0001") from rfl] at hv; cases hv; rfl)
    (by intro v hv; rw [show lookupV "pos" demoValidRecord =
          some (.vStr "noun") from rfl] at hv; cases hv; rfl)

/-- C6 counterexample: the script rule is not exactly the claimed character
set — the regex class also contains an escaped ASCII full stop, so the string
`"."` is accepted although none of its characters are in the claim's set. -/
theorem validate_myanmar_claim_counterexample :
    ¬ (∀ s : String, validate_myanmar s = true ↔
        (s ≠ "" ∧ ∀ c ∈ s.data, claimScriptChar c = true)) := by
  intro h
  have h2 := (h ".").mp (by decide)
  exact absurd (h2.2 '.' (by decide)) (by decide)

/-- C6 (amended): the script rule accepts `rakhine` exactly when it is
non-empty and every character is in the Myanmar block U+1000–U+109F, the
Myanmar-extended block U+AA60–U+AA7F, whitespace, the ASCII full stop
(escaped in the regex class), or one of the Myanmar punctuation marks
U+104A / U+104B. -/
theorem validate_myanmar_characterization (s : String) :
    validate_myanmar s = true ↔
      (s ≠ "" ∧ ∀ c ∈ s.data,
        ((0x1000 ≤ c.toNat ∧ c.toNat ≤ 0x109F) ∨
         (0xAA60 ≤ c.toNat ∧ c.toNat ≤ 0xAA7F) ∨
         isPySpace c = true ∨ c = '.' ∨ c = '၊' ∨ c = '။')) := by
  rcases eq_or_ne s "" with he | he
  · subst he
    simp [validate_myanmar]
  · have hd : s.data ≠ [] := by
      intro hnil
      apply he
      cases s with
      | mk d =>
        have hd2 : d = [] := hnil
        rw [hd2]
    simp only [validate_myanmar, if_neg he, myanmarMatch, Bool.and_eq_true,
      List.all_eq_true, Bool.not_eq_eq_eq_not, Bool.not_true,
      myanmarPatternChar, Bool.or_eq_true, decide_eq_true_eq, beq_iff_eq]
    constructor
    · rintro ⟨-, hall⟩
      refine ⟨he, fun c hc => ?_⟩
      have h3 := hall c hc
      tauto
    · rintro ⟨-, hall⟩
      refine ⟨?_, fun c hc => ?_⟩
      · simp [List.isEmpty_iff, hd]
      · have h3 := hall c hc
        tauto

/-- C7: the IPA rule rejects undelimited strings with the delimiter-specific
finding (`"lam"` among them), accepts `"/lăm/"`, accepts any body whose
characters are all in the allowed set, combining marks U+0300–U+036F, or the
punctuation allow-list, and on the first offending character reports that
character with its code point. -/
theorem validate_rakhine_ipa_spec (s : String) (hne : s ≠ "") :
    (ipaWrapped s = false → validate_rakhine_ipa s = (false, enclosedMsg)) ∧
    validate_rakhine_ipa "lam" = (false, enclosedMsg) ∧
    validate_rakhine_ipa "/lăm/" = (true, "") ∧
    (ipaWrapped s = true → (ipaBody s).all isPySpace = false →
      (∀ c ∈ ipaBody s, ipaCharOk c = true) →
      validate_rakhine_ipa s = (true, "")) ∧
    (∀ c, ipaWrapped s = true → (ipaBody s).all isPySpace = false →
      (ipaBody s).find? (fun ch => !ipaCharOk ch) = some c →
      validate_rakhine_ipa s = (false, ipaBadMsg c)) := by
  refine ⟨?_, by decide, by decide, ?_, ?_⟩
  · intro hw
    simp [validate_rakhine_ipa, hne, hw]
  · intro hw hb hall
    have hnone : (ipaBody s).find? (fun c => !ipaCharOk c) = none :=
      List.find?_eq_none.mpr (fun c hc => by simp [hall c hc])
    simp [validate_rakhine_ipa, hne, hw, hb, hnone]
  · intro c hw hb hf
    simp [validate_rakhine_ipa, hne, hw, hb, hf]

/-- C7 witness: `"[a@]"` is wrapped, has a non-blank body, and its first bad
character `@` (U+0040) is reported. -/
theorem validate_rakhine_ipa_spec_witness :
    validate_rakhine_ipa "[a@]" = (false, ipaBadMsg '@') :=
  (validate_rakhine_ipa_spec "[a@]" (by decide)).2.2.2.2 '@'
    (by decide) (by decide) (by decide)

/-- C8: every file of a batch is attempted independently — the report has one
outcome per file in order, and the outcome is a failure exactly for the files
whose contents could not be read; no failure aborts the batch. -/
theorem batchImport_attempts_every_file (db : AudioDB) (files : List DirFile)
    (mm : List (String × AudioMetadata)) :
    ((batchImportDirectory db files mm).2.map ImportResult.filenameOf =
      files.map DirFile.name) ∧
    (∀ i, i < files.length →
      ((batchImportDirectory db files mm).2.getD i
          (ImportResult.failed "" "")).isFailure =
        ((files.getD i { name := "", path := "", content := none }).content).isNone) := by
  induction files generalizing db with
  | nil =>
    refine ⟨rfl, ?_⟩
    intro i hi
    exact absurd hi (by simp)
  | cons f rest ih =>
    cases hc : f.content with
    | none =>
      refine ⟨?_, ?_⟩
      · simp [batchImportDirectory, hc, ImportResult.filenameOf, (ih db).1]
      · intro i hi
        cases i with
        | zero => simp [batchImportDirectory, hc, ImportResult.isFailure]
        | succ j =>
          simp only [batchImportDirectory, hc, List.getD_cons_succ]
          exact (ih db).2 j (by simpa using hi)
    | some d =>
      refine ⟨?_, ?_⟩
      · simp [batchImportDirectory, hc, ImportResult.filenameOf]
        exact (ih _).1
      · intro i hi
        cases i with
        | zero => simp [batchImportDirectory, hc, ImportResult.isFailure]
        | succ j =>
          simp only [batchImportDirectory, hc, List.getD_cons_succ]
          exact (ih _).2 j (by simpa using hi)

/-- C8 witness: a batch of one readable and one unreadable file yields one
success and then one failure, in order, without aborting. -/
theorem batchImport_attempts_every_file_witness :
    ((batchImportDirectory demoEmptyDB demoBatchFiles []).2.map
        ImportResult.filenameOf = demoBatchFiles.map DirFile.name) ∧
    ((batchImportDirectory demoEmptyDB demoBatchFiles []).2.getD 0
        (ImportResult.failed "" "")).isFailure = false ∧
    ((batchImportDirectory demoEmptyDB demoBatchFiles []).2.getD 1
        (ImportResult.failed "" "")).isFailure = true := by
  obtain ⟨h1, h2⟩ := batchImport_attempts_every_file demoEmptyDB demoBatchFiles []
  refine ⟨h1, ?_, ?_⟩
  · rw [h2 0 (by decide)]
    rfl
  · rw [h2 1 (by decide)]
    rfl

/-- C9: on a sequence-valued field (`synonyms`, `antonyms`) the `exact` flag
has no effect — matching is always case-insensitive substring over the
elements — and each entry of a duplicate-free store appears at most once in
the result even when several of its elements match. -/
theorem search_seq_field_exact_irrelevant (query fld : String)
    (entries : List LexiconEntry) (hf : fld = "synonyms" ∨ fld = "antonyms") :
    search query fld true entries = search query fld false entries ∧
    (∀ l e, search query fld false entries = some l → entries.Nodup →
      l.count e ≤ 1) := by
  have hg : ∀ e : LexiconEntry, ∃ ls, getField e fld = .fvStrList ls := by
    intro e
    rcases hf with rfl | rfl
    · exact ⟨e.synonyms, rfl⟩
    · exact ⟨e.antonyms, rfl⟩
  have hnc : ∀ ex : Bool, ∀ e ∈ entries, entryMatch query fld ex e ≠ .crash := by
    intro ex e _
    obtain ⟨ls, hls⟩ := hg e
    exact entryMatch_strList_ne_crash query fld ex e ls hls
  have hindep : ∀ e : LexiconEntry,
      entryMatch query fld true e = entryMatch query fld false e := by
    intro e
    obtain ⟨ls, hls⟩ := hg e
    unfold entryMatch
    rw [hls]
  constructor
  · rw [search_no_crash_filter query fld true entries (hnc true),
        search_no_crash_filter query fld false entries (hnc false)]
    congr 1
    exact List.filter_congr (fun e _ => by rw [hindep e])
  · intro l e hl hnd
    rw [search_no_crash_filter query fld false entries (hnc false)] at hl
    injection hl with hl2
    subst hl2
    calc (List.filter (fun e => entryMatch query fld false e == .keep)
            entries).count e
        ≤ entries.count e := (List.filter_sublist entries).count_le e
      _ ≤ 1 := List.nodup_iff_count_le_one.mp hnd e

/-- C9 witness: both synonyms of the demo entry match `water`, yet the entry
appears once, and the `exact` flag changes nothing. -/
theorem search_seq_field_exact_irrelevant_witness :
    (search "water" "synonyms" true [demoSynonymEntry] =
      search "water" "synonyms" false [demoSynonymEntry]) ∧
    (∀ l e, search "water" "synonyms" false [demoSynonymEntry] = some l →
      [demoSynonymEntry].Nodup → l.count e ≤ 1) ∧
    search "water" "synonyms" false [demoSynonymEntry] = some [demoSynonymEntry] := by
  obtain ⟨h1, h2⟩ := search_seq_field_exact_irrelevant "water" "synonyms"
    [demoSynonymEntry] (Or.inl rfl)
  exact ⟨h1, h2, by decide⟩

/-- C10: an IPA string that is just delimiters around an empty or
whitespace-only body is accepted — the `not ipa_content.strip()` branch
returns `(True, "")` before any character check. -/
theorem validate_rakhine_ipa_blank_body (s : String) (hw : ipaWrapped s = true)
    (hb : (ipaBody s).all isPySpace = true) :
    validate_rakhine_ipa s = (true, "") := by
  have hne : s ≠ "" := by
    intro he
    subst he
    exact absurd hw (by decide)
  simp [validate_rakhine_ipa, hne, hw, hb]

/-- C10 witness: `"//"` and `"[ ]"` are both accepted although the `ipa`
field itself is present and non-empty. -/
theorem validate_rakhine_ipa_blank_body_witness :
    validate_rakhine_ipa "//" = (true, "") ∧
    validate_rakhine_ipa "[ ]" = (true, "") :=
  ⟨validate_rakhine_ipa_blank_body "//" (by decide) (by decide),
   validate_rakhine_ipa_blank_body "[ ]" (by decide) (by decide)⟩

end RkiLexicon
